import Mathlib

/-!
Shallow embedding of the locator-rebinding ("same xpath" propagation) logic of
rpf.ConsoleManager (src/unnamed/part_000), together with proofs of the testable
properties the spec states about it.

Conventions of the embedding:
- JS objects used as string-keyed maps (infoMap.steps, infoMap.elems) become
  insertion-ordered association lists; JS for-in iteration is list order.
- JS property access that throws a TypeError on undefined (such as
  originalInfoMap.steps[stepId].elemId when the step is absent) is modelled by
  an Option result, with none standing for the thrown exception.
- A JS value that may be undefined and is compared with loose equality
  (elem.xpaths[0] == oldXpath) is modelled as an Option String compared by
  Option equality: undefined == undefined holds, undefined == "s" does not.
-/

namespace Rpf

/-- ElementRecord of an InfoMap: the locator data attached to an element id
(spec section 3); these four fields are exactly the ones the rebinder reads
and writes. -/
structure ElementRecord where
  selectors : List String
  xpaths : List String
  descriptor : String
  iframeInfo : String
deriving DecidableEq, Repr

/-- StepRecord of an InfoMap: a recorded step with its display name and an
optional element reference (spec section 3: elemId is optional; a dangling or
missing elemId is "no element"). -/
structure StepRecord where
  stepName : String
  elemId : Option String
deriving DecidableEq, Repr

/-- Per-test side table mapping step ids to StepRecords and element ids to
ElementRecords, as decoded from a test datafile. Association lists keep the
deterministic JS for-in insertion order. -/
structure InfoMap where
  steps : List (String × StepRecord)
  elems : List (String × ElementRecord)
deriving DecidableEq, Repr

/-- The new command map handed to the rebinder: cmdMap carries the replacement
locator data (the four fields updateElement_ copies out of it). -/
structure CmdMap where
  selectors : List String
  xpaths : List String
  descriptor : String
  iframeInfo : String
deriving DecidableEq, Repr

/-- The ElementRecord holding exactly the four fields updateElement_ copies
from the command map (elem.selectors = cmdMap.selectors and so on). -/
def newElem (cmdMap : CmdMap) : ElementRecord :=
  { selectors := cmdMap.selectors
    xpaths := cmdMap.xpaths
    descriptor := cmdMap.descriptor
    iframeInfo := cmdMap.iframeInfo }

/-- In-place JS field assignment on the object elems[k]: the association list
with the first binding of key k replaced by v. The key is known to be present
at every call site (lookup succeeded first). -/
def setElem : List (String × ElementRecord) → String → ElementRecord →
    List (String × ElementRecord)
  | [], _, _ => []
  | (k1, v1) :: rest, k, v =>
      if k1 = k then (k, v) :: rest else (k1, v1) :: setElem rest k v

/-- rpf.ConsoleManager.prototype.updateElement_ (part_000 lines 1056-1066):
reads steps[stepId].elemId and elems[elemId], remembers elem.xpaths[0] and
overwrites the selectors, xpaths, descriptor and iframeInfo with the
ones of the command map. none models the TypeError thrown when the step or the element
does not resolve; the returned Option String is the JS value of
elem.xpaths[0], undefined when xpaths is empty. -/
def updateElement_ (stepId : String) (cmdMap : CmdMap)
    (originalInfoMap : InfoMap) : Option (Option String × InfoMap) :=
  match originalInfoMap.steps.lookup stepId with
  | none => none
  | some step =>
    match step.elemId with
    | none => none
    | some elemId =>
      match originalInfoMap.elems.lookup elemId with
      | none => none
      | some elem =>
        some (elem.xpaths.head?,
          { originalInfoMap with
            elems := setElem originalInfoMap.elems elemId
              { elem with
                selectors := cmdMap.selectors
                xpaths := cmdMap.xpaths
                descriptor := cmdMap.descriptor
                iframeInfo := cmdMap.iframeInfo } })

/-- A match record pushed by getStepsFromInfoMap_: the object literal with
keys testName, stepName and elemId (spec section 3, Match). -/
structure MatchRec where
  testName : String
  stepName : String
  elemId : String
deriving DecidableEq, Repr

/-- The loop body of getStepsFromInfoMap_ for one (step, record) binding:
resolve elem = elems[step.elemId]; when elem exists and elem.xpaths[0] ==
oldXpath (JS loose equality on possibly-undefined values), produce the match
record, otherwise nothing. -/
def stepMatch (elems : List (String × Rpf.ElementRecord)) (oldXpath : Option String)
    (testName : String) (sp : String × Rpf.StepRecord) : Option MatchRec :=
  match sp.2.elemId with
  | none => none
  | some elemId =>
    match elems.lookup elemId with
    | none => none
    | some elem =>
      if elem.xpaths.head? = oldXpath then
        some { testName := testName, stepName := sp.2.stepName, elemId := elemId }
      else none

/-- rpf.ConsoleManager.prototype.getStepsFromInfoMap_ (part_000 lines
1252-1270): iterate the steps map in insertion order, collect a match for each
step whose element resolves and whose primary xpath equals oldXpath, and
return null (none) instead of the empty array. -/
def getStepsFromInfoMap_ (testName : String) (infoMap : Rpf.InfoMap)
    (oldXpath : Option String) : Option (List MatchRec) :=
  let allSteps := infoMap.steps.foldl
    (fun acc sp =>
      match stepMatch infoMap.elems oldXpath testName sp with
      | some m => acc ++ [m]
      | none => acc) []
  if allSteps = [] then none else some allSteps

/-- A test of the project as the rebinder sees it. In the source a test is a
JSON blob run through bite.base.Helper.getTestObject and
bite.console.Helper.trimInfoMap (both outside src/); per the spec the datafile
encode/decode is an opaque round-trip pair, so a test is modelled as its name
together with its decoded InfoMap. -/
structure Test where
  name : String
  infoMap : Rpf.InfoMap
deriving DecidableEq, Repr

/-- rpf.ConsoleManager.prototype.getStepsWithSameXpath_ (part_000 lines
1224-1241): concatenate the per-test matches over the tests of the project in
order, skipping tests that contributed none, and return null (none) for the
empty result. -/
def getStepsWithSameXpath_ (tests : List Test) (oldXpath : Option String) :
    Option (List MatchRec) :=
  let allSteps := tests.foldl
    (fun acc t =>
      match getStepsFromInfoMap_ t.name t.infoMap oldXpath with
      | some stepsOfTest => acc ++ stepsOfTest
      | none => acc) []
  if allSteps = [] then none else some allSteps

/-- Specification-side characterization of the match search (spec section 8:
findMatches of X over P returns exactly the set of test-step pairs whose
resolved element has xpaths[0] equal to X, ordered project-order then
step-order), written directly as a filter over the project, to be compared
with the source-translated fold above. -/
def specMatches (tests : List Test) (oldXpath : Option String) : List MatchRec :=
  (tests.map (fun t =>
    t.infoMap.steps.filterMap (stepMatch t.infoMap.elems oldXpath t.name))).flatten

/-- The string constant rpf.ConsoleManager.LOCAL_ (part_000 line 469). -/
def LOCAL_ : String := "local"

/-- The string constant rpf.ConsoleManager.WEB_ (part_000 line 477). -/
def WEB_ : String := "web"

/-- The slice of the rpf.Tests project-info object the rebinder touches:
the test array and the load-from tag. rpf.Tests itself is outside src/;
modelled from the spec: a Project is a named collection of tests with a
load-origin tag (spec section 3), read through getTests/getLoadFrom and
written through setTests/saveInfoMapToTest. -/
structure ProjectInfo where
  tests : List Test
  loadFrom : String
deriving DecidableEq, Repr

/-- Modelled from the spec: rpf.Tests.prototype.getInfoMapByTest is outside
src/; per spec section 3 an InfoMap is loaded on demand from the datafile of the
named test, so this looks up the first test with the given name and yields its
decoded InfoMap. -/
def getInfoMapByTest (pi : ProjectInfo) (testName : String) : Option Rpf.InfoMap :=
  (pi.tests.find? (fun t => t.name = testName)).map (·.infoMap)

/-- Modelled from the spec: rpf.Tests.prototype.saveInfoMapToTest is outside
src/; per spec section 3 the mutated InfoMap is written back to the test it
was loaded from, so this replaces the InfoMap of the first test with the
given name. -/
def setTestInfoMap : List Test → String → Rpf.InfoMap → List Test
  | [], _, _ => []
  | t :: rest, n, m =>
      if t.name = n then { t with infoMap := m } :: rest
      else t :: setTestInfoMap rest n m

/-- Write-back half of the on-demand InfoMap round trip (see setTestInfoMap). -/
def saveInfoMapToTest (pi : ProjectInfo) (testName : String) (m : Rpf.InfoMap) :
    ProjectInfo :=
  { pi with tests := setTestInfoMap pi.tests testName m }

/-- rpf.ConsoleManager.prototype.updateElementInTest_ (part_000 lines
1076-1081): load the InfoMap of the named test, update the element at the step,
save the InfoMap back. none models the TypeError propagating out of
updateElement_ when the test or the reference chain does not resolve. -/
def updateElementInTest_ (testName : String) (stepId : String) (cmdMap : Rpf.CmdMap)
    (pi : ProjectInfo) : Option ProjectInfo :=
  match getInfoMapByTest pi testName with
  | none => none
  | some originalInfoMap =>
    match Rpf.updateElement_ stepId cmdMap originalInfoMap with
    | none => none
    | some (_, m1) => some (saveInfoMapToTest pi testName m1)

/-- Payload handed to the confirmation surface by showElementsWithSameXpath_
(the soy template input: the match data plus the load-from tag). -/
structure Confirmation where
  data : List MatchRec
  loadFrom : String
deriving DecidableEq, Repr

/-- rpf.ConsoleManager.prototype.showElementsWithSameXpath_ (part_000 lines
1144-1152): when data is null it returns without rendering or invoking the
callback (none); otherwise the rendered confirmation surface is handed to the
callback (some payload). -/
def showElementsWithSameXpath_ (data : Option (List MatchRec)) (loadFrom : String) :
    Option Confirmation :=
  match data with
  | none => none
  | some d => some { data := d, loadFrom := loadFrom }

/-- One checkbox of the confirmation surface, name selectedSteps: whether it
is checked and its value string "testName___stepId". -/
structure SelectedStep where
  checked : Bool
  value : String
deriving DecidableEq, Repr

/-- A message sent through this.messenger_.sendMessage: the rebinder issues
only SAVE_PROJECT_LOCALLY with the project name and the full test array
(part_000 lines 1196-1201). -/
inductive Message where
  | saveProjectLocally (name : String) (tests : List Test)
deriving DecidableEq, Repr

/-- The slice of ConsoleManager state the rebinding code reads and writes:
projectInfo_ (always a rpf.Tests instance, constructor line 117, so the JS
truthiness guard on it reduces to the load-from test), infoMap_ (the
InfoMap of the currently open test, constructor line 124), the project
name held by the loader dialog, the test-name input read by getTestName_, the listener keys
registered on updateAllHandler_, and the pending confirmation surface held by
the UI collaborator. -/
structure ConsoleState where
  projectInfo_ : ProjectInfo
  infoMap_ : Rpf.InfoMap
  projectName_ : String
  testName_ : String
  updateAllHandler_ : List String
  pendingDialog : Option Confirmation
deriving DecidableEq, Repr

/-- Character-level worker for the JS String.prototype.split with a nonempty
plain-string separator: scan left to right, cut at each occurrence of the
separator, resume after it. The fuel argument bounds the recursion; callers
pass the input length plus one, which is enough because every recursive call
consumes at least one character of input when the separator is nonempty. -/
def splitChars (sep : List Char) : Nat → List Char → List Char → List (List Char)
  | 0, cs, acc => [acc.reverse ++ cs]
  | _ + 1, [], acc => [acc.reverse]
  | fuel + 1, c :: rest, acc =>
      if sep.isPrefixOf (c :: rest) then
        acc.reverse :: splitChars sep fuel ((c :: rest).drop sep.length) []
      else
        splitChars sep fuel rest (c :: acc)

/-- JS String.prototype.split(separator) for a plain nonempty separator
string, as used on the checkbox value (value.split of the triple
underscore). -/
def jsSplit (s sep : String) : List String :=
  (splitChars sep.data (s.data.length + 1) s.data []).map List.asString

/-- nameAndStep[0] of a selectedSteps checkbox value: the piece before the
first triple underscore. A JS split always yields at least one piece, so the
default is never used. -/
def selTestName (sel : SelectedStep) : String :=
  (jsSplit sel.value "___").getD 0 "undefined"

/-- nameAndStep[1] of a selectedSteps checkbox value: the piece between the
first and second triple underscore. Indexing a JS array past its end yields
undefined, which as a property key reads as its string rendering. -/
def selStepId (sel : SelectedStep) : String :=
  (jsSplit sel.value "___").getD 1 "undefined"

/-- The reference chain updateElement_ walks inside one InfoMap: the
StepRecord at the step id, its elemId, and the ElementRecord at that elemId;
none when any link is missing. -/
def resolveElem (im : Rpf.InfoMap) (stepId : String) : Option Rpf.ElementRecord :=
  match im.steps.lookup stepId with
  | none => none
  | some step =>
    match step.elemId with
    | none => none
    | some elemId => im.elems.lookup elemId

/-- The InfoMap a checked selection is applied to: the named test of the
project when it was loaded from local, otherwise the InfoMap of the
currently open test. -/
def selScope (s : ConsoleState) (sel : SelectedStep) : Option Rpf.InfoMap :=
  if s.projectInfo_.loadFrom = LOCAL_ then
    getInfoMapByTest s.projectInfo_ (selTestName sel)
  else some s.infoMap_

/-- The ElementRecord a selection resolves to in the given console state;
none when the test, the step or the element reference is missing. -/
def selElem (s : ConsoleState) (sel : SelectedStep) : Option Rpf.ElementRecord :=
  match selScope s sel with
  | none => none
  | some im => resolveElem im (selStepId sel)

/-- The body of the handleReplaceButton_ loop for one selectedSteps checkbox
(part_000 lines 1182-1192): unchecked boxes are skipped; for a checked box
the value is split on the triple underscore and the element is updated either
in the named test of the local project or in the current infoMap_. none
models the TypeError propagating out of updateElement_. -/
def processOne (sel : SelectedStep) (cmdMap : Rpf.CmdMap) (s : ConsoleState) :
    Option ConsoleState :=
  if sel.checked then
    if s.projectInfo_.loadFrom = LOCAL_ then
      match updateElementInTest_ (selTestName sel) (selStepId sel) cmdMap s.projectInfo_ with
      | none => none
      | some pi1 => some { s with projectInfo_ := pi1 }
    else
      match Rpf.updateElement_ (selStepId sel) cmdMap s.infoMap_ with
      | none => none
      | some (_, m1) => some { s with infoMap_ := m1 }
  else some s

/-- The handleReplaceButton_ for-loop over the selectedSteps checkbox list; a
thrown TypeError (none) aborts the remaining iterations and everything after
the loop. -/
def processSelections : List SelectedStep → Rpf.CmdMap → ConsoleState →
    Option ConsoleState
  | [], _, s => some s
  | sel :: rest, cmdMap, s =>
    match processOne sel cmdMap s with
    | none => none
    | some s1 => processSelections rest cmdMap s1

/-- rpf.ConsoleManager.prototype.handleCancelButton_ (part_000 lines
1212-1215): run the onCancelHandler and remove every listener registered on
updateAllHandler_. The onCancelHandler is supplied by the UI collaborator
(outside src/); modelled from the spec: cancel discards the pending match
surface (spec section 4.1, cancel()). -/
def handleCancelButton_ (s : ConsoleState) : ConsoleState :=
  { s with pendingDialog := none, updateAllHandler_ := [] }

/-- rpf.ConsoleManager.prototype.handleReplaceButton_ (part_000 lines
1180-1204): apply the new command map to every checked selection, then, when
the project was loaded from local, send one SAVE_PROJECT_LOCALLY message
carrying the project name and the full test array, and finally run
handleCancelButton_. The result pairs the final state with the list of
messages sent; none models a TypeError aborting the handler (no message is
sent in that case). -/
def handleReplaceButton_ (selectedSteps : List SelectedStep) (newCmdMap : Rpf.CmdMap)
    (s : ConsoleState) : Option (ConsoleState × List Message) :=
  match processSelections selectedSteps newCmdMap s with
  | none => none
  | some s1 =>
    let msgs :=
      if s1.projectInfo_.loadFrom = LOCAL_ then
        [Message.saveProjectLocally s1.projectName_ s1.projectInfo_.tests]
      else []
    some (handleCancelButton_ s1, msgs)

/-- Outcome of updateElementAtLine_ after the in-place update: either the
GET_TEST_NAMES_LOCALLY request that precedes the cross-project search (local
case), or the web-case search result handed to showElementsWithSameXpath_. -/
inductive LineUpdateOutcome where
  | requestLocalTestNames (project : String) (oldXpath : Option String)
  | webConfirmation (surface : Option Confirmation)
deriving DecidableEq, Repr

/-- rpf.ConsoleManager.prototype.updateElementAtLine_ (part_000 lines
1092-1115), taking the step id already extracted from the editor line (the
getTextAtLine/getStepId extraction is outside src/): first updateElement_
rewrites the element in the current infoMap_ in place, and only then does the
local branch request the test list of the project (the search and the confirmation
surface come later, in the response callback) or the web branch search the
already-updated infoMap_ for the old xpath and hand the result to
showElementsWithSameXpath_. none models the TypeError when the step does not
resolve in infoMap_. -/
def updateElementAtLine_ (stepId : String) (cmdMap : Rpf.CmdMap) (s : ConsoleState) :
    Option (ConsoleState × LineUpdateOutcome) :=
  match Rpf.updateElement_ stepId cmdMap s.infoMap_ with
  | none => none
  | some (oldXpath, m1) =>
    let s1 := { s with infoMap_ := m1 }
    if s.projectInfo_.loadFrom = LOCAL_ then
      some (s1, LineUpdateOutcome.requestLocalTestNames s.projectName_ oldXpath)
    else
      some (s1, LineUpdateOutcome.webConfirmation
        (showElementsWithSameXpath_
          (getStepsFromInfoMap_ s.testName_ m1 oldXpath) WEB_))

/-- Concrete fixture: element e1 with primary xpath matching scenario A of
spec section 8. -/
def exElem1 : Rpf.ElementRecord :=
  { selectors := ["sel1"], xpaths := ["//div[1]", "//alt1"],
    descriptor := "d1", iframeInfo := "f1" }

/-- Concrete fixture: element e2 sharing the primary xpath of e1. -/
def exElem2 : Rpf.ElementRecord :=
  { selectors := ["sel2"], xpaths := ["//div[1]"],
    descriptor := "d2", iframeInfo := "f2" }

/-- Concrete fixture: an InfoMap with two resolving steps and one step whose
elemId dangles. -/
def exMap1 : Rpf.InfoMap :=
  { steps := [("s1", { stepName := "step one", elemId := some "e1" }),
              ("s2", { stepName := "step two", elemId := some "e2" }),
              ("s3", { stepName := "step three", elemId := some "gone" })],
    elems := [("e1", exElem1), ("e2", exElem2)] }

/-- Concrete fixture: an InfoMap in which two distinct steps reference the
same element id. -/
def exMapShared : Rpf.InfoMap :=
  { steps := [("s1", { stepName := "step one", elemId := some "e1" }),
              ("s2", { stepName := "step two", elemId := some "e1" })],
    elems := [("e1", exElem1)] }

/-- Concrete fixture: a replacement command map. -/
def exCmd : Rpf.CmdMap :=
  { selectors := ["newSel"], xpaths := ["//span[1]"],
    descriptor := "newDesc", iframeInfo := "newFrame" }

/-- Concrete fixture: the single test t1 holding exMap1. -/
def exTest1 : Test := { name := "t1", infoMap := exMap1 }

/-- Concrete fixture: console state with a locally loaded one-test project. -/
def exStateLocal : ConsoleState :=
  { projectInfo_ := { tests := [exTest1], loadFrom := "local" },
    infoMap_ := exMap1, projectName_ := "proj", testName_ := "t1",
    updateAllHandler_ := [], pendingDialog := none }

/-- Concrete fixture: console state for a test loaded from the web, no local
project context. -/
def exStateWeb : ConsoleState :=
  { projectInfo_ := { tests := [], loadFrom := "web" },
    infoMap_ := exMap1, projectName_ := "proj", testName_ := "t1",
    updateAllHandler_ := [], pendingDialog := none }

/-- Concrete fixture: exMap1 after updateElement_ on step s1 with exCmd. -/
def exMap1New : Rpf.InfoMap :=
  { steps := exMap1.steps,
    elems := [("e1", Rpf.newElem exCmd), ("e2", exElem2)] }

/-- Concrete fixture: exMapShared after updateElement_ on step s1 with
exCmd. -/
def exMapSharedNew : Rpf.InfoMap :=
  { steps := exMapShared.steps,
    elems := [("e1", Rpf.newElem exCmd)] }

/-- Concrete fixture: exStateLocal after the replace handler applied exCmd to
the match of step s1 in test t1. -/
def exStateLocalDone : ConsoleState :=
  { exStateLocal with projectInfo_ :=
      { tests := [{ name := "t1", infoMap := Rpf.exMap1New }], loadFrom := "local" } }

/-! Helper lemmas about association-list lookup and in-place replacement. -/

theorem lookup_setElem_self {l : List (String × Rpf.ElementRecord)} {k : String}
    {w : Rpf.ElementRecord} (v : Rpf.ElementRecord) (h : l.lookup k = some w) :
    (Rpf.setElem l k v).lookup k = some v := by
  induction l with
  | nil => simp [List.lookup] at h
  | cons p rest ih =>
    obtain ⟨k1, v1⟩ := p
    by_cases hk : k1 = k
    · subst hk
      simp [Rpf.setElem, List.lookup]
    · have hbk : (k == k1) = false := by
        simp only [beq_eq_false_iff_ne]
        exact fun h2 => hk h2.symm
      simp only [Rpf.setElem, if_neg hk, List.lookup, hbk] at h ⊢
      exact ih h

theorem lookup_setElem_ne {l : List (String × Rpf.ElementRecord)} {k k1 : String}
    (v : Rpf.ElementRecord) (h : k1 ≠ k) :
    (Rpf.setElem l k v).lookup k1 = l.lookup k1 := by
  induction l with
  | nil => simp [Rpf.setElem]
  | cons p rest ih =>
    obtain ⟨k2, v2⟩ := p
    have hbk : (k1 == k) = false := by simp only [beq_eq_false_iff_ne]; exact h
    by_cases hk : k2 = k
    · subst hk
      simp only [Rpf.setElem, if_pos rfl, List.lookup, hbk]
    · simp only [Rpf.setElem, if_neg hk, List.lookup]
      cases hbe : (k1 == k2) with
      | true => rfl
      | false => exact ih

theorem setElem_map_fst (l : List (String × Rpf.ElementRecord)) (k : String)
    (v : Rpf.ElementRecord) :
    (Rpf.setElem l k v).map Prod.fst = l.map Prod.fst := by
  induction l with
  | nil => simp [Rpf.setElem]
  | cons p rest ih =>
    obtain ⟨k1, v1⟩ := p
    by_cases hk : k1 = k
    · subst hk; simp [Rpf.setElem]
    · simp [Rpf.setElem, if_neg hk, ih]

theorem setElem_self {l : List (String × Rpf.ElementRecord)} {k : String}
    {v : Rpf.ElementRecord} (h : l.lookup k = some v) :
    Rpf.setElem l k v = l := by
  induction l with
  | nil => simp [List.lookup] at h
  | cons p rest ih =>
    obtain ⟨k1, v1⟩ := p
    by_cases hk : k1 = k
    · subst hk
      have hbk : (k1 == k1) = true := by simp
      simp only [List.lookup, hbk] at h
      obtain rfl : v1 = v := by injection h
      simp [Rpf.setElem]
    · have hbk : (k == k1) = false := by
        simp only [beq_eq_false_iff_ne]
        exact fun h2 => hk h2.symm
      simp only [List.lookup, hbk] at h
      simp [Rpf.setElem, if_neg hk, ih h]

/-! The elimination lemma for updateElement_: a successful update determines
the reference chain, the returned old xpath and the shape of the new map. -/

theorem updateElement_eq {stepId : String} {cmdMap : Rpf.CmdMap} {m : Rpf.InfoMap}
    {o : Option String} {m1 : Rpf.InfoMap}
    (h : Rpf.updateElement_ stepId cmdMap m = some (o, m1)) :
    ∃ step elemId elem,
      m.steps.lookup stepId = some step ∧
      step.elemId = some elemId ∧
      m.elems.lookup elemId = some elem ∧
      o = elem.xpaths.head? ∧
      m1 = { m with elems := Rpf.setElem m.elems elemId (Rpf.newElem cmdMap) } := by
  unfold Rpf.updateElement_ at h
  split at h
  · exact absurd h (by simp)
  case _ step hstep =>
    split at h
    · exact absurd h (by simp)
    case _ elemId helemId =>
      split at h
      · exact absurd h (by simp)
      case _ elem helem =>
        simp only [Option.some.injEq, Prod.mk.injEq] at h
        exact ⟨step, elemId, elem, hstep, helemId, helem, h.1.symm, h.2.symm⟩

/-- C5: for every selected match, updateElement_ overwrites only the
selectors, xpaths, descriptor and iframeInfo of the targeted ElementRecord
with the values from the new command map; the steps mapping (hence every
StepRecord and stepName), every non-targeted ElementRecord, and the key sets
of both mappings are left unchanged. -/
theorem updateElement_frame {stepId : String} {cmdMap : Rpf.CmdMap} {m : Rpf.InfoMap}
    {o : Option String} {m1 : Rpf.InfoMap}
    (h : Rpf.updateElement_ stepId cmdMap m = some (o, m1)) :
    m1.steps = m.steps ∧
    m1.elems.map Prod.fst = m.elems.map Prod.fst ∧
    ∃ step elemId,
      m.steps.lookup stepId = some step ∧
      step.elemId = some elemId ∧
      m1.elems.lookup elemId = some (Rpf.newElem cmdMap) ∧
      ∀ k, k ≠ elemId → m1.elems.lookup k = m.elems.lookup k := by
  obtain ⟨step, elemId, elem, hstep, helemId, helem, ho, hm1⟩ := updateElement_eq h
  subst hm1
  refine ⟨rfl, setElem_map_fst _ _ _, step, elemId, hstep, helemId, ?_, ?_⟩
  · exact lookup_setElem_self _ helem
  · intro k hk
    exact lookup_setElem_ne _ hk

/-- Witness for C5 at a concrete input: updating step s1 of exMap1. -/
theorem updateElement_frame_witness :
    Rpf.exMap1New.steps = Rpf.exMap1.steps ∧
    Rpf.exMap1New.elems.map Prod.fst = Rpf.exMap1.elems.map Prod.fst ∧
    ∃ step elemId,
      Rpf.exMap1.steps.lookup "s1" = some step ∧
      step.elemId = some elemId ∧
      Rpf.exMap1New.elems.lookup elemId = some (Rpf.newElem Rpf.exCmd) ∧
      ∀ k, k ≠ elemId → Rpf.exMap1New.elems.lookup k = Rpf.exMap1.elems.lookup k :=
  updateElement_frame (show Rpf.updateElement_ "s1" Rpf.exCmd Rpf.exMap1 =
    some (some "//div[1]", Rpf.exMap1New) by decide)

/-- C10: the confirmed update is keyed by elemId on the shared ElementRecord,
not by step: when two distinct steps of an InfoMap reference the same elemId,
updateElement_ applied to one of them leaves both steps resolving, through
the single mutated elems entry, to the new locator data. -/
theorem updateElement_shared_elemId {sid1 sid2 : String} {m : Rpf.InfoMap}
    {st1 st2 : Rpf.StepRecord} {eid : String} {cmdMap : Rpf.CmdMap}
    {o : Option String} {m1 : Rpf.InfoMap}
    (_hne : sid1 ≠ sid2)
    (h1 : m.steps.lookup sid1 = some st1) (he1 : st1.elemId = some eid)
    (h2 : m.steps.lookup sid2 = some st2) (he2 : st2.elemId = some eid)
    (h : Rpf.updateElement_ sid1 cmdMap m = some (o, m1)) :
    Rpf.resolveElem m1 sid2 = some (Rpf.newElem cmdMap) ∧
    Rpf.resolveElem m1 sid1 = some (Rpf.newElem cmdMap) := by
  obtain ⟨step, elemId, elem, hstep, helemId, helem, ho, hm1⟩ := updateElement_eq h
  have hst : step = st1 := by rw [hstep] at h1; exact Option.some.inj h1
  subst hst
  have heq : elemId = eid := by rw [helemId] at he1; exact Option.some.inj he1
  subst heq
  subst hm1
  have hself : (Rpf.setElem m.elems elemId (Rpf.newElem cmdMap)).lookup elemId =
      some (Rpf.newElem cmdMap) := lookup_setElem_self _ helem
  constructor
  · show Rpf.resolveElem _ sid2 = _
    unfold Rpf.resolveElem
    simp only [h2, he2]
    exact hself
  · unfold Rpf.resolveElem
    simp only [hstep, helemId]
    exact hself

/-- Witness for C10 at a concrete input: steps s1 and s2 of exMapShared both
reference e1; updating via s1 rebinds s2 as well. -/
theorem updateElement_shared_elemId_witness :
    Rpf.resolveElem Rpf.exMapSharedNew "s2" = some (Rpf.newElem Rpf.exCmd) ∧
    Rpf.resolveElem Rpf.exMapSharedNew "s1" = some (Rpf.newElem Rpf.exCmd) :=
  updateElement_shared_elemId
    (show ("s1" : String) ≠ "s2" by decide)
    (show Rpf.exMapShared.steps.lookup "s1" =
      some { stepName := "step one", elemId := some "e1" } by decide)
    rfl
    (show Rpf.exMapShared.steps.lookup "s2" =
      some { stepName := "step two", elemId := some "e1" } by decide)
    rfl
    (show Rpf.updateElement_ "s1" Rpf.exCmd Rpf.exMapShared =
      some (some "//div[1]", Rpf.exMapSharedNew) by decide)

/-- C9: updateElementAtLine_ rewrites the element of the triggering step in
the InfoMap of the currently open test immediately, through updateElement_,
before any project reload request, cross-test search or user confirmation:
whenever it returns, the returned state already resolves the step at the
line to the new selectors, xpaths, descriptor and iframeInfo, and a
subsequent cancel leaves that InfoMap untouched. -/
theorem updateElementAtLine_updates_first {stepId : String} {cmdMap : Rpf.CmdMap}
    {s s1 : ConsoleState} {out : LineUpdateOutcome}
    (h : updateElementAtLine_ stepId cmdMap s = some (s1, out)) :
    ∃ step elemId,
      s.infoMap_.steps.lookup stepId = some step ∧
      step.elemId = some elemId ∧
      s1.infoMap_.elems.lookup elemId = some (Rpf.newElem cmdMap) ∧
      Rpf.resolveElem s1.infoMap_ stepId = some (Rpf.newElem cmdMap) ∧
      (handleCancelButton_ s1).infoMap_ = s1.infoMap_ := by
  unfold updateElementAtLine_ at h
  split at h
  · exact absurd h (by simp)
  case _ o m1 hupd =>
    have hs1 : s1.infoMap_ = m1 := by
      by_cases hlf : s.projectInfo_.loadFrom = LOCAL_ <;>
        simp only [hlf, if_true, if_false, Option.some.injEq, Prod.mk.injEq,
          reduceIte] at h <;>
        rw [← h.1]
    obtain ⟨step, elemId, elem, hstep, helemId, helem, ho, hm1⟩ := updateElement_eq hupd
    refine ⟨step, elemId, hstep, helemId, ?_, ?_, rfl⟩
    · rw [hs1, hm1]
      exact lookup_setElem_self _ helem
    · rw [hs1, hm1]
      unfold Rpf.resolveElem
      simp only [hstep, helemId]
      exact lookup_setElem_self _ helem

/-- Witness for C9 at a concrete input: a web-loaded state, updating the
element of step s1. -/
theorem updateElementAtLine_updates_first_witness :
    ∃ step elemId,
      Rpf.exStateWeb.infoMap_.steps.lookup "s1" = some step ∧
      step.elemId = some elemId ∧
      ({ Rpf.exStateWeb with infoMap_ := Rpf.exMap1New } :
        Rpf.ConsoleState).infoMap_.elems.lookup elemId = some (Rpf.newElem Rpf.exCmd) ∧
      Rpf.resolveElem ({ Rpf.exStateWeb with infoMap_ := Rpf.exMap1New } :
        Rpf.ConsoleState).infoMap_ "s1" = some (Rpf.newElem Rpf.exCmd) ∧
      (Rpf.handleCancelButton_ { Rpf.exStateWeb with infoMap_ := Rpf.exMap1New }).infoMap_ =
        ({ Rpf.exStateWeb with infoMap_ := Rpf.exMap1New } : Rpf.ConsoleState).infoMap_ :=
  updateElementAtLine_updates_first
    (show Rpf.updateElementAtLine_ "s1" Rpf.exCmd Rpf.exStateWeb =
      some ({ Rpf.exStateWeb with infoMap_ := Rpf.exMap1New },
        Rpf.LineUpdateOutcome.webConfirmation
          (some { data := [{ testName := "t1", stepName := "step two", elemId := "e2" }],
                  loadFrom := "web" })) by decide)

/-! The push-loop of the match search equals a filterMap, first inside one
InfoMap, then across the tests of a project. -/

theorem getStepsFromInfoMap_loop (t : String)
    (elems : List (String × Rpf.ElementRecord)) (X : Option String) :
    ∀ (l : List (String × Rpf.StepRecord)) (acc : List MatchRec),
      l.foldl (fun acc sp =>
          match stepMatch elems X t sp with
          | some m => acc ++ [m]
          | none => acc) acc
        = acc ++ l.filterMap (stepMatch elems X t) := by
  intro l
  induction l with
  | nil => intro acc; simp
  | cons sp rest ih =>
    intro acc
    rw [List.foldl_cons, List.filterMap_cons]
    cases hsm : stepMatch elems X t sp with
    | none => simp only [hsm]; rw [ih]
    | some mrec => simp only [hsm]; rw [ih, List.append_assoc]; rfl

theorem getStepsFromInfoMap_eq (testName : String) (im : Rpf.InfoMap)
    (X : Option String) :
    getStepsFromInfoMap_ testName im X =
      (if im.steps.filterMap (stepMatch im.elems X testName) = [] then none
       else some (im.steps.filterMap (stepMatch im.elems X testName))) := by
  unfold getStepsFromInfoMap_
  rw [getStepsFromInfoMap_loop, List.nil_append]

theorem getStepsWithSameXpath_loop (X : Option String) :
    ∀ (tests : List Test) (acc : List MatchRec),
      tests.foldl (fun acc t =>
          match getStepsFromInfoMap_ t.name t.infoMap X with
          | some stepsOfTest => acc ++ stepsOfTest
          | none => acc) acc
        = acc ++ specMatches tests X := by
  intro tests
  induction tests with
  | nil => intro acc; simp [specMatches]
  | cons t rest ih =>
    intro acc
    rw [List.foldl_cons]
    have hspec : specMatches (t :: rest) X =
        t.infoMap.steps.filterMap (stepMatch t.infoMap.elems X t.name) ++
          specMatches rest X := by
      simp [specMatches]
    rw [hspec, getStepsFromInfoMap_eq]
    by_cases hl : t.infoMap.steps.filterMap (stepMatch t.infoMap.elems X t.name) = []
    · simp only [hl, if_pos rfl]
      rw [ih]
      simp
    · simp only [if_neg hl]
      rw [ih, List.append_assoc]

theorem getStepsWithSameXpath_eq (tests : List Test) (X : Option String) :
    getStepsWithSameXpath_ tests X =
      (if specMatches tests X = [] then none else some (specMatches tests X)) := by
  unfold getStepsWithSameXpath_
  rw [getStepsWithSameXpath_loop, List.nil_append]

/-- C1: for every project scope and every primary-xpath value X (the empty
string included), the match search returns exactly, and in project order then
step order, the records of the steps whose elemId resolves to an element with
xpaths[0] equal to X - unresolvable steps are skipped, not errors - both
inside one InfoMap (getStepsFromInfoMap_) and across the project
(getStepsWithSameXpath_), with the empty result rendered as none. -/
theorem findMatches_exact :
    (∀ (testName : String) (im : Rpf.InfoMap) (X : Option String),
      getStepsFromInfoMap_ testName im X =
        (if im.steps.filterMap (stepMatch im.elems X testName) = [] then none
         else some (im.steps.filterMap (stepMatch im.elems X testName)))) ∧
    (∀ (tests : List Test) (X : Option String),
      getStepsWithSameXpath_ tests X =
        (if specMatches tests X = [] then none else some (specMatches tests X))) :=
  ⟨getStepsFromInfoMap_eq, getStepsWithSameXpath_eq⟩

/-- C6: a search over a scope with zero qualifying steps yields the
distinguished absent result null, not an empty sequence, and
showElementsWithSameXpath_ then returns without invoking the rendering
callback. -/
theorem findMatches_absent {tests : List Test} {X : Option String}
    (loadFrom : String) (hempty : specMatches tests X = []) :
    getStepsWithSameXpath_ tests X = none ∧
    showElementsWithSameXpath_ (getStepsWithSameXpath_ tests X) loadFrom = none := by
  have h : getStepsWithSameXpath_ tests X = none := by
    rw [getStepsWithSameXpath_eq, hempty, if_pos rfl]
  exact ⟨h, by rw [h]; rfl⟩

/-- Witness for C6 at a concrete input: scenario B of spec section 8, no
element of the project has primary xpath //div[2]. -/
theorem findMatches_absent_witness :
    getStepsWithSameXpath_ [Rpf.exTest1] (some "//div[2]") = none ∧
    showElementsWithSameXpath_ (getStepsWithSameXpath_ [Rpf.exTest1] (some "//div[2]"))
      Rpf.WEB_ = none :=
  findMatches_absent Rpf.WEB_
    (show specMatches [Rpf.exTest1] (some "//div[2]") = [] by decide)

/-! Lemmas about the reference chain, the project write-back, and the shape
preserved by an update. -/

theorem updateElement_none {sid : String} {cmdMap : Rpf.CmdMap} {im : Rpf.InfoMap}
    (h : Rpf.resolveElem im sid = none) :
    Rpf.updateElement_ sid cmdMap im = none := by
  unfold Rpf.resolveElem at h
  unfold Rpf.updateElement_
  cases h1 : im.steps.lookup sid with
  | none => simp only [h1]
  | some step =>
    simp only [h1] at h ⊢
    cases h2 : step.elemId with
    | none => simp only [h2]
    | some eid =>
      simp only [h2] at h ⊢
      simp only [h]

theorem updateElement_preserves_shape {sid : String} {cmdMap : Rpf.CmdMap}
    {m : Rpf.InfoMap} {o : Option String} {m1 : Rpf.InfoMap}
    (h : Rpf.updateElement_ sid cmdMap m = some (o, m1)) :
    m1.steps = m.steps ∧
    ∀ k, (m1.elems.lookup k).isSome = (m.elems.lookup k).isSome := by
  obtain ⟨step, elemId, elem, hstep, helemId, helem, ho, hm1⟩ := updateElement_eq h
  subst hm1
  refine ⟨rfl, fun k => ?_⟩
  by_cases hk : k = elemId
  · subst hk
    rw [lookup_setElem_self (Rpf.newElem cmdMap) helem, helem]
    rfl
  · rw [lookup_setElem_ne _ hk]

theorem resolveElem_congr {m m1 : Rpf.InfoMap} (hsteps : m1.steps = m.steps)
    (hsome : ∀ k, (m1.elems.lookup k).isSome = (m.elems.lookup k).isSome)
    (sid : String) :
    (Rpf.resolveElem m1 sid).isSome = (Rpf.resolveElem m sid).isSome := by
  unfold Rpf.resolveElem
  rw [hsteps]
  cases h1 : m.steps.lookup sid with
  | none => simp only [h1]
  | some step =>
    simp only [h1]
    cases h2 : step.elemId with
    | none => simp only [h2]
    | some eid =>
      simp only [h2]
      exact hsome eid

theorem find_setTestInfoMap (tests : List Test) (tn n : String) (m1 : Rpf.InfoMap) :
    (Rpf.setTestInfoMap tests tn m1).find? (fun t => t.name = n) =
      (if n = tn then
        (tests.find? (fun t => t.name = tn)).map (fun t => { t with infoMap := m1 })
       else tests.find? (fun t => t.name = n)) := by
  induction tests with
  | nil => by_cases hn : n = tn <;> simp [Rpf.setTestInfoMap, hn]
  | cons t rest ih =>
    by_cases ht : t.name = tn
    · simp only [Rpf.setTestInfoMap, if_pos ht]
      by_cases hn : t.name = n
      · have hntn : n = tn := by rw [← hn, ht]
        rw [List.find?_cons_of_pos _ (by simp [hn]), if_pos hntn,
          List.find?_cons_of_pos _ (by simp [ht])]
        rfl
      · have hntn : ¬ n = tn := fun hcon => hn (by rw [hcon]; exact ht)
        rw [List.find?_cons_of_neg _ (by simp [hn]), if_neg hntn,
          List.find?_cons_of_neg _ (by simp [hn])]
    · simp only [Rpf.setTestInfoMap, if_neg ht]
      by_cases hn : t.name = n
      · have hntn : ¬ n = tn := fun hcon => ht (by rw [hn, hcon])
        rw [List.find?_cons_of_pos _ (by simp [hn]), if_neg hntn,
          List.find?_cons_of_pos _ (by simp [hn])]
      · by_cases hntn : n = tn
        · rw [List.find?_cons_of_neg _ (by simp [hn]), ih, if_pos hntn, if_pos hntn,
            List.find?_cons_of_neg _ (by simp [ht])]
        · rw [List.find?_cons_of_neg _ (by simp [hn]), ih, if_neg hntn, if_neg hntn,
            List.find?_cons_of_neg _ (by simp [hn])]

theorem getInfoMapByTest_save (pi : ProjectInfo) (tn n : String) (m1 : Rpf.InfoMap) :
    getInfoMapByTest (saveInfoMapToTest pi tn m1) n =
      (if n = tn then (getInfoMapByTest pi tn).map (fun _ => m1)
       else getInfoMapByTest pi n) := by
  unfold getInfoMapByTest saveInfoMapToTest
  rw [find_setTestInfoMap]
  by_cases hn : n = tn
  · simp only [hn, if_pos rfl]
    cases pi.tests.find? (fun t => t.name = tn) <;> rfl
  · simp only [if_neg hn]

theorem setTestInfoMap_self {tests : List Test} {tn : String} {m0 : Rpf.InfoMap}
    (h : (tests.find? (fun t => t.name = tn)).map (·.infoMap) = some m0) :
    Rpf.setTestInfoMap tests tn m0 = tests := by
  induction tests with
  | nil => simp at h
  | cons t rest ih =>
    by_cases ht : t.name = tn
    · rw [List.find?_cons_of_pos _ (by simp [ht])] at h
      obtain rfl : t.infoMap = m0 := Option.some.inj h
      simp only [Rpf.setTestInfoMap, if_pos ht]
    · rw [List.find?_cons_of_neg _ (by simp [ht])] at h
      simp [Rpf.setTestInfoMap, ht, ih h]

theorem saveInfoMapToTest_self {pi : ProjectInfo} {tn : String} {m0 : Rpf.InfoMap}
    (h : getInfoMapByTest pi tn = some m0) :
    saveInfoMapToTest pi tn m0 = pi := by
  unfold getInfoMapByTest at h
  unfold saveInfoMapToTest
  rw [setTestInfoMap_self h]

theorem updateElementInTest_eq {tn sid : String} {cmdMap : Rpf.CmdMap}
    {pi pi1 : ProjectInfo}
    (h : updateElementInTest_ tn sid cmdMap pi = some pi1) :
    ∃ m0 o m1,
      getInfoMapByTest pi tn = some m0 ∧
      Rpf.updateElement_ sid cmdMap m0 = some (o, m1) ∧
      pi1 = saveInfoMapToTest pi tn m1 := by
  unfold updateElementInTest_ at h
  split at h
  · exact absurd h (by simp)
  · rename_i m0 hm0
    split at h
    · exact absurd h (by simp)
    · rename_i o m1 hp
      exact ⟨m0, o, m1, hm0, hp, (Option.some.inj h).symm⟩

/-! Map-level consequences of one update: the targeted chain now carries the
new locator data, chains already carrying it keep it, and an update whose
target already carries it is the identity. -/

theorem resolveElem_after_update_self {m m1 : Rpf.InfoMap} {sid : String}
    {cmdMap : Rpf.CmdMap} {o : Option String}
    (hup : Rpf.updateElement_ sid cmdMap m = some (o, m1)) :
    Rpf.resolveElem m1 sid = some (Rpf.newElem cmdMap) := by
  obtain ⟨step, elemId, elem, hstep, helemId, helem, ho, hm1⟩ := updateElement_eq hup
  subst hm1
  unfold Rpf.resolveElem
  simp only [hstep, helemId]
  exact lookup_setElem_self _ helem

theorem resolveElem_after_update {m m1 : Rpf.InfoMap} {sid sid2 : String}
    {cmdMap : Rpf.CmdMap} {o : Option String}
    (hup : Rpf.updateElement_ sid cmdMap m = some (o, m1))
    (hx : Rpf.resolveElem m sid2 = some (Rpf.newElem cmdMap)) :
    Rpf.resolveElem m1 sid2 = some (Rpf.newElem cmdMap) := by
  obtain ⟨step, elemId, elem, hstep, helemId, helem, ho, hm1⟩ := updateElement_eq hup
  subst hm1
  unfold Rpf.resolveElem at hx ⊢
  cases h1 : m.steps.lookup sid2 with
  | none => simp only [h1] at hx; exact absurd hx (by simp)
  | some st2 =>
    simp only [h1] at hx
    simp only [h1]
    cases h2 : st2.elemId with
    | none => simp only [h2] at hx; exact absurd hx (by simp)
    | some eid2 =>
      simp only [h2] at hx
      simp only [h2]
      by_cases hk : eid2 = elemId
      · subst hk
        exact lookup_setElem_self _ helem
      · rw [lookup_setElem_ne _ hk]
        exact hx

theorem updateElement_fixpoint {m : Rpf.InfoMap} {sid : String} {cmdMap : Rpf.CmdMap}
    (hres : Rpf.resolveElem m sid = some (Rpf.newElem cmdMap)) :
    Rpf.updateElement_ sid cmdMap m = some ((Rpf.newElem cmdMap).xpaths.head?, m) := by
  unfold Rpf.resolveElem at hres
  unfold Rpf.updateElement_
  cases h1 : m.steps.lookup sid with
  | none => simp only [h1] at hres; exact absurd hres (by simp)
  | some step =>
    simp only [h1] at hres
    simp only [h1]
    cases h2 : step.elemId with
    | none => simp only [h2] at hres; exact absurd hres (by simp)
    | some eid =>
      simp only [h2] at hres
      simp only [h2, hres]
      have h3 : Rpf.setElem m.elems eid
          { selectors := cmdMap.selectors, xpaths := cmdMap.xpaths,
            descriptor := cmdMap.descriptor, iframeInfo := cmdMap.iframeInfo } =
          m.elems := setElem_self hres
      rw [h3]

/-! State-level analysis of one loop iteration of handleReplaceButton_. -/

theorem processOne_cases {sel : SelectedStep} {cmdMap : Rpf.CmdMap}
    {s s1 : ConsoleState} (h : processOne sel cmdMap s = some s1) :
    (sel.checked = false ∧ s1 = s) ∨
    (sel.checked = true ∧ s.projectInfo_.loadFrom = LOCAL_ ∧
      ∃ m0 o m1,
        getInfoMapByTest s.projectInfo_ (selTestName sel) = some m0 ∧
        Rpf.updateElement_ (selStepId sel) cmdMap m0 = some (o, m1) ∧
        s1 = { s with projectInfo_ :=
          saveInfoMapToTest s.projectInfo_ (selTestName sel) m1 }) ∨
    (sel.checked = true ∧ ¬ s.projectInfo_.loadFrom = LOCAL_ ∧
      ∃ o m1,
        Rpf.updateElement_ (selStepId sel) cmdMap s.infoMap_ = some (o, m1) ∧
        s1 = { s with infoMap_ := m1 }) := by
  unfold processOne at h
  by_cases hchk : sel.checked = true
  · rw [if_pos hchk] at h
    by_cases hlf : s.projectInfo_.loadFrom = LOCAL_
    · rw [if_pos hlf] at h
      split at h
      · exact absurd h (by simp)
      · rename_i pi1 hupd
        obtain ⟨m0, o, m1, hm0, hup, hpi1⟩ := updateElementInTest_eq hupd
        subst hpi1
        exact Or.inr (Or.inl ⟨hchk, hlf, m0, o, m1, hm0, hup, (Option.some.inj h).symm⟩)
    · rw [if_neg hlf] at h
      split at h
      · exact absurd h (by simp)
      · rename_i o m1 hup
        exact Or.inr (Or.inr ⟨hchk, hlf, o, m1, hup, (Option.some.inj h).symm⟩)
  · rw [if_neg hchk] at h
    rw [Bool.not_eq_true] at hchk
    exact Or.inl ⟨hchk, (Option.some.inj h).symm⟩

theorem selElem_eq_local {s : ConsoleState} (sel : SelectedStep)
    (hlf : s.projectInfo_.loadFrom = LOCAL_) :
    selElem s sel =
      (match getInfoMapByTest s.projectInfo_ (selTestName sel) with
       | none => none
       | some im => Rpf.resolveElem im (selStepId sel)) := by
  unfold selElem selScope
  rw [if_pos hlf]

theorem selElem_eq_web {s : ConsoleState} (sel : SelectedStep)
    (hlf : ¬ s.projectInfo_.loadFrom = LOCAL_) :
    selElem s sel = Rpf.resolveElem s.infoMap_ (selStepId sel) := by
  unfold selElem selScope
  rw [if_neg hlf]

theorem processOne_const {sel : SelectedStep} {cmdMap : Rpf.CmdMap}
    {s s1 : ConsoleState} (h : processOne sel cmdMap s = some s1) :
    s1.projectName_ = s.projectName_ ∧ s1.testName_ = s.testName_ ∧
    s1.updateAllHandler_ = s.updateAllHandler_ ∧ s1.pendingDialog = s.pendingDialog ∧
    s1.projectInfo_.loadFrom = s.projectInfo_.loadFrom ∧
    (¬ s.projectInfo_.loadFrom = LOCAL_ → s1.projectInfo_ = s.projectInfo_) ∧
    (s.projectInfo_.loadFrom = LOCAL_ → s1.infoMap_ = s.infoMap_) := by
  rcases processOne_cases h with ⟨_, rfl⟩ |
    ⟨_, hlf, m0, o, m1, hm0, hup, rfl⟩ | ⟨_, hlf, o, m1, hup, rfl⟩
  · exact ⟨rfl, rfl, rfl, rfl, rfl, fun _ => rfl, fun _ => rfl⟩
  · exact ⟨rfl, rfl, rfl, rfl, rfl, fun hnl => absurd hlf hnl, fun _ => rfl⟩
  · exact ⟨rfl, rfl, rfl, rfl, rfl, fun _ => rfl, fun hl => absurd hl hlf⟩

theorem processOne_none {sel : SelectedStep} {cmdMap : Rpf.CmdMap} {s : ConsoleState}
    (hchk : sel.checked = true) (hres : selElem s sel = none) :
    processOne sel cmdMap s = none := by
  unfold processOne
  rw [if_pos hchk]
  by_cases hlf : s.projectInfo_.loadFrom = LOCAL_
  · rw [selElem_eq_local sel hlf] at hres
    rw [if_pos hlf]
    unfold updateElementInTest_
    cases hm0 : getInfoMapByTest s.projectInfo_ (selTestName sel) with
    | none => simp only [hm0]
    | some m0 =>
      simp only [hm0] at hres
      simp only [hm0, updateElement_none hres]
  · rw [selElem_eq_web sel hlf] at hres
    rw [if_neg hlf]
    simp only [updateElement_none hres]

theorem processOne_sets_target {sel : SelectedStep} {cmdMap : Rpf.CmdMap}
    {s s1 : ConsoleState} (hchk : sel.checked = true)
    (h : processOne sel cmdMap s = some s1) :
    selElem s1 sel = some (Rpf.newElem cmdMap) := by
  rcases processOne_cases h with ⟨hc, rfl⟩ |
    ⟨_, hlf, m0, o, m1, hm0, hup, rfl⟩ | ⟨_, hlf, o, m1, hup, rfl⟩
  · rw [hchk] at hc; exact absurd hc (by simp)
  · have hlf1 : ({ s with
        projectInfo_ := saveInfoMapToTest s.projectInfo_ (selTestName sel) m1 } :
        ConsoleState).projectInfo_.loadFrom = LOCAL_ := hlf
    rw [selElem_eq_local sel hlf1]
    have hs : getInfoMapByTest ({ s with
        projectInfo_ := saveInfoMapToTest s.projectInfo_ (selTestName sel) m1 } :
        ConsoleState).projectInfo_ (selTestName sel) = some m1 := by
      show getInfoMapByTest
        (saveInfoMapToTest s.projectInfo_ (selTestName sel) m1) (selTestName sel) = some m1
      rw [getInfoMapByTest_save, if_pos rfl, hm0]
      rfl
    simp only [hs]
    exact resolveElem_after_update_self hup
  · have hlf1 : ¬ ({ s with infoMap_ := m1 } :
        ConsoleState).projectInfo_.loadFrom = LOCAL_ := hlf
    rw [selElem_eq_web sel hlf1]
    exact resolveElem_after_update_self hup

theorem processOne_preserves_target {sel x : SelectedStep} {cmdMap : Rpf.CmdMap}
    {s s1 : ConsoleState} (h : processOne sel cmdMap s = some s1)
    (hx : selElem s x = some (Rpf.newElem cmdMap)) :
    selElem s1 x = some (Rpf.newElem cmdMap) := by
  rcases processOne_cases h with ⟨_, rfl⟩ |
    ⟨_, hlf, m0, o, m1, hm0, hup, rfl⟩ | ⟨_, hlf, o, m1, hup, rfl⟩
  · exact hx
  · rw [selElem_eq_local x hlf] at hx
    have hlf1 : ({ s with
        projectInfo_ := saveInfoMapToTest s.projectInfo_ (selTestName sel) m1 } :
        ConsoleState).projectInfo_.loadFrom = LOCAL_ := hlf
    rw [selElem_eq_local x hlf1]
    have hsave : getInfoMapByTest ({ s with
        projectInfo_ := saveInfoMapToTest s.projectInfo_ (selTestName sel) m1 } :
        ConsoleState).projectInfo_ (selTestName x) =
        (if selTestName x = selTestName sel then
          (getInfoMapByTest s.projectInfo_ (selTestName sel)).map (fun _ => m1)
         else getInfoMapByTest s.projectInfo_ (selTestName x)) :=
      getInfoMapByTest_save s.projectInfo_ (selTestName sel) (selTestName x) m1
    by_cases hxn : selTestName x = selTestName sel
    · rw [hsave, if_pos hxn, hm0]
      rw [hxn, hm0] at hx
      simp only [Option.map_some']
      exact resolveElem_after_update hup hx
    · rw [hsave, if_neg hxn]
      exact hx
  · rw [selElem_eq_web x hlf] at hx
    have hlf1 : ¬ ({ s with infoMap_ := m1 } :
        ConsoleState).projectInfo_.loadFrom = LOCAL_ := hlf
    rw [selElem_eq_web x hlf1]
    exact resolveElem_after_update hup hx

theorem processOne_preserves_isSome {sel x : SelectedStep} {cmdMap : Rpf.CmdMap}
    {s s1 : ConsoleState} (h : processOne sel cmdMap s = some s1) :
    (selElem s1 x).isSome = (selElem s x).isSome := by
  rcases processOne_cases h with ⟨_, rfl⟩ |
    ⟨_, hlf, m0, o, m1, hm0, hup, rfl⟩ | ⟨_, hlf, o, m1, hup, rfl⟩
  · rfl
  · have hlf1 : ({ s with
        projectInfo_ := saveInfoMapToTest s.projectInfo_ (selTestName sel) m1 } :
        ConsoleState).projectInfo_.loadFrom = LOCAL_ := hlf
    rw [selElem_eq_local x hlf, selElem_eq_local x hlf1]
    have hsave : getInfoMapByTest ({ s with
        projectInfo_ := saveInfoMapToTest s.projectInfo_ (selTestName sel) m1 } :
        ConsoleState).projectInfo_ (selTestName x) =
        (if selTestName x = selTestName sel then
          (getInfoMapByTest s.projectInfo_ (selTestName sel)).map (fun _ => m1)
         else getInfoMapByTest s.projectInfo_ (selTestName x)) :=
      getInfoMapByTest_save s.projectInfo_ (selTestName sel) (selTestName x) m1
    obtain ⟨hsteps, hsome⟩ := updateElement_preserves_shape hup
    by_cases hxn : selTestName x = selTestName sel
    · rw [hsave, if_pos hxn, hxn, hm0]
      simp only [Option.map_some']
      exact resolveElem_congr hsteps hsome _
    · rw [hsave, if_neg hxn]
  · have hlf1 : ¬ ({ s with infoMap_ := m1 } :
        ConsoleState).projectInfo_.loadFrom = LOCAL_ := hlf
    rw [selElem_eq_web x hlf, selElem_eq_web x hlf1]
    obtain ⟨hsteps, hsome⟩ := updateElement_preserves_shape hup
    exact resolveElem_congr hsteps hsome _

theorem processOne_fixpoint {sel : SelectedStep} {cmdMap : Rpf.CmdMap}
    {s : ConsoleState}
    (hres : sel.checked = true → selElem s sel = some (Rpf.newElem cmdMap)) :
    processOne sel cmdMap s = some s := by
  unfold processOne
  by_cases hchk : sel.checked = true
  · rw [if_pos hchk]
    have hres1 := hres hchk
    by_cases hlf : s.projectInfo_.loadFrom = LOCAL_
    · rw [selElem_eq_local sel hlf] at hres1
      rw [if_pos hlf]
      unfold updateElementInTest_
      cases hm0 : getInfoMapByTest s.projectInfo_ (selTestName sel) with
      | none =>
        simp only [hm0] at hres1
        exact absurd hres1 (by simp)
      | some m0 =>
        simp only [hm0] at hres1
        simp only [hm0, updateElement_fixpoint hres1]
        rw [saveInfoMapToTest_self hm0]
    · rw [selElem_eq_web sel hlf] at hres1
      rw [if_neg hlf]
      simp only [updateElement_fixpoint hres1]
  · rw [if_neg hchk]

/-! Lifting the per-iteration facts over the whole selectedSteps loop. -/

theorem processSelections_const (sels : List SelectedStep) :
    ∀ {cmdMap : Rpf.CmdMap} {s s1 : ConsoleState},
      processSelections sels cmdMap s = some s1 →
      s1.projectName_ = s.projectName_ ∧ s1.testName_ = s.testName_ ∧
      s1.updateAllHandler_ = s.updateAllHandler_ ∧
      s1.pendingDialog = s.pendingDialog ∧
      s1.projectInfo_.loadFrom = s.projectInfo_.loadFrom ∧
      (¬ s.projectInfo_.loadFrom = LOCAL_ → s1.projectInfo_ = s.projectInfo_) ∧
      (s.projectInfo_.loadFrom = LOCAL_ → s1.infoMap_ = s.infoMap_) := by
  induction sels with
  | nil =>
    intro cmdMap s s1 h
    obtain rfl : s = s1 := Option.some.inj h
    exact ⟨rfl, rfl, rfl, rfl, rfl, fun _ => rfl, fun _ => rfl⟩
  | cons x rest ih =>
    intro cmdMap s s1 h
    unfold processSelections at h
    split at h
    · exact absurd h (by simp)
    · rename_i s2 hpo
      obtain ⟨a1, a2, a3, a4, a5, a6, a7⟩ := processOne_const hpo
      obtain ⟨b1, b2, b3, b4, b5, b6, b7⟩ := ih h
      refine ⟨b1.trans a1, b2.trans a2, b3.trans a3, b4.trans a4, b5.trans a5,
        fun hnl => ?_, fun hl => ?_⟩
      · exact (b6 (by rw [a5]; exact hnl)).trans (a6 hnl)
      · exact (b7 (by rw [a5]; exact hl)).trans (a7 hl)

theorem processSelections_preserves_target (sels : List SelectedStep) :
    ∀ {cmdMap : Rpf.CmdMap} {s s1 : ConsoleState} {x : SelectedStep},
      processSelections sels cmdMap s = some s1 →
      selElem s x = some (Rpf.newElem cmdMap) →
      selElem s1 x = some (Rpf.newElem cmdMap) := by
  induction sels with
  | nil =>
    intro cmdMap s s1 x h hx
    obtain rfl : s = s1 := Option.some.inj h
    exact hx
  | cons y rest ih =>
    intro cmdMap s s1 x h hx
    unfold processSelections at h
    split at h
    · exact absurd h (by simp)
    · rename_i s2 hpo
      exact ih h (processOne_preserves_target hpo hx)

theorem processSelections_sets_targets (sels : List SelectedStep) :
    ∀ {cmdMap : Rpf.CmdMap} {s s1 : ConsoleState},
      processSelections sels cmdMap s = some s1 →
      ∀ x ∈ sels, x.checked = true → selElem s1 x = some (Rpf.newElem cmdMap) := by
  induction sels with
  | nil => intro cmdMap s s1 h x hx; exact absurd hx (List.not_mem_nil x)
  | cons y rest ih =>
    intro cmdMap s s1 h x hx hchk
    unfold processSelections at h
    split at h
    · exact absurd h (by simp)
    · rename_i s2 hpo
      rcases List.mem_cons.mp hx with rfl | hxr
      · exact processSelections_preserves_target rest h
          (processOne_sets_target hchk hpo)
      · exact ih h x hxr hchk

theorem processSelections_none_of_unresolved (sels : List SelectedStep) :
    ∀ {cmdMap : Rpf.CmdMap} {s : ConsoleState} {x : SelectedStep},
      x ∈ sels → x.checked = true → selElem s x = none →
      processSelections sels cmdMap s = none := by
  induction sels with
  | nil => intro cmdMap s x hx; exact absurd hx (List.not_mem_nil x)
  | cons y rest ih =>
    intro cmdMap s x hx hchk hres
    rcases List.mem_cons.mp hx with rfl | hxr
    · unfold processSelections
      rw [processOne_none hchk hres]
    · unfold processSelections
      cases hpo : processOne y cmdMap s with
      | none => rfl
      | some s2 =>
        have hres2 : selElem s2 x = none := by
          have hiso := processOne_preserves_isSome (x := x) hpo
          rw [hres] at hiso
          exact Option.eq_none_of_isNone (by
            rw [Option.isNone_iff_eq_none]
            cases hc : selElem s2 x with
            | none => rfl
            | some v => rw [hc] at hiso; exact absurd hiso (by simp))
        exact ih hxr hchk hres2

theorem processSelections_fixpoint (sels : List SelectedStep) :
    ∀ {cmdMap : Rpf.CmdMap} {s : ConsoleState},
      (∀ x ∈ sels, x.checked = true → selElem s x = some (Rpf.newElem cmdMap)) →
      processSelections sels cmdMap s = some s := by
  induction sels with
  | nil => intro cmdMap s _; rfl
  | cons y rest ih =>
    intro cmdMap s h
    unfold processSelections
    rw [processOne_fixpoint (h y (List.mem_cons_self y rest))]
    exact ih (fun x hx hchk => h x (List.mem_cons_of_mem y hx) hchk)

theorem processSelections_unchecked (sels : List SelectedStep) :
    ∀ {cmdMap : Rpf.CmdMap} {s : ConsoleState},
      (∀ x ∈ sels, x.checked = false) →
      processSelections sels cmdMap s = some s := by
  induction sels with
  | nil => intro cmdMap s _; rfl
  | cons y rest ih =>
    intro cmdMap s h
    unfold processSelections
    have hy : y.checked = false := h y (List.mem_cons_self y rest)
    have hpo : processOne y cmdMap s = some s := by
      unfold processOne
      rw [if_neg (by simp [hy])]
    rw [hpo]
    exact ih (fun x hx => h x (List.mem_cons_of_mem y hx))

/-- C2: when the load origin of the project is LOCAL, the replace handler,
after applying the new locator to every checked selection, issues exactly one
persistence request carrying the project name and the full (updated) test
list as a single unit; when the origin is not LOCAL (loaded from the web or
no project context), no persistence request is issued and only the InfoMap of
the currently open test is mutated (the project info, project name and test
name are untouched). -/
theorem handleReplaceButton_persistence {sels : List SelectedStep}
    {cmdMap : Rpf.CmdMap} {s s1 : ConsoleState} {msgs : List Message}
    (h : handleReplaceButton_ sels cmdMap s = some (s1, msgs)) :
    (s.projectInfo_.loadFrom = LOCAL_ →
      msgs = [Message.saveProjectLocally s.projectName_ s1.projectInfo_.tests]) ∧
    (¬ s.projectInfo_.loadFrom = LOCAL_ →
      msgs = [] ∧ s1.projectInfo_ = s.projectInfo_ ∧
      s1.projectName_ = s.projectName_ ∧ s1.testName_ = s.testName_) := by
  unfold handleReplaceButton_ at h
  split at h
  · exact absurd h (by simp)
  · rename_i s2 hps
    obtain ⟨a1, a2, a3, a4, a5, a6, a7⟩ := processSelections_const sels hps
    have hpair := Option.some.inj h
    injection hpair with hs1 hmsgs
    constructor
    · intro hlf
      have hlf2 : s2.projectInfo_.loadFrom = LOCAL_ := by rw [a5]; exact hlf
      rw [← hmsgs, if_pos hlf2, ← hs1, a1]
      rfl
    · intro hnl
      have hnl2 : ¬ s2.projectInfo_.loadFrom = LOCAL_ := by rw [a5]; exact hnl
      refine ⟨by rw [← hmsgs, if_neg hnl2], ?_, ?_, ?_⟩
      · rw [← hs1]
        exact (show (handleCancelButton_ s2).projectInfo_ = s2.projectInfo_
          from rfl).trans (a6 hnl)
      · rw [← hs1]
        exact (show (handleCancelButton_ s2).projectName_ = s2.projectName_
          from rfl).trans a1
      · rw [← hs1]
        exact (show (handleCancelButton_ s2).testName_ = s2.testName_
          from rfl).trans a2

/-- Witness for C2 at a concrete input: one checked selection applied in a
locally loaded one-test project; the single message carries the project name
and the full updated test list. -/
theorem handleReplaceButton_persistence_witness :
    [Rpf.Message.saveProjectLocally "proj" [{ name := "t1", infoMap := Rpf.exMap1New }]] =
      [Rpf.Message.saveProjectLocally Rpf.exStateLocal.projectName_
        Rpf.exStateLocalDone.projectInfo_.tests] :=
  (handleReplaceButton_persistence
    (show Rpf.handleReplaceButton_ [{ checked := true, value := "t1___s1" }]
        Rpf.exCmd Rpf.exStateLocal =
      some (Rpf.exStateLocalDone,
        [Rpf.Message.saveProjectLocally "proj"
          [{ name := "t1", infoMap := Rpf.exMap1New }]]) by decide)).1 rfl

/-- Counterexample for C3: with the project loaded from local and zero
matches selected, the replace handler still issues its whole-project
persistence request, so "no persistence request is issued" fails. -/
theorem handleReplace_zeroSelected_persists :
    Rpf.handleReplaceButton_ [] Rpf.exCmd Rpf.exStateLocal =
      some (Rpf.exStateLocal,
        [Rpf.Message.saveProjectLocally "proj" [Rpf.exTest1]]) ∧
    [Rpf.Message.saveProjectLocally "proj" [Rpf.exTest1]] ≠ ([] : List Rpf.Message) := by
  constructor
  · decide
  · decide

/-- C3 as amended: confirming with zero matches selected applies nothing -
no ElementRecord in any InfoMap is mutated, the state only loses its pending
dialog and listeners - and no persistence request is issued when the origin
is not LOCAL; when the origin is LOCAL the handler still issues its single
whole-project save request, carrying the unchanged project. -/
theorem handleReplace_zeroChecked {sels : List SelectedStep} {cmdMap : Rpf.CmdMap}
    {s : ConsoleState} (h : ∀ x ∈ sels, x.checked = false) :
    handleReplaceButton_ sels cmdMap s = some (handleCancelButton_ s,
      if s.projectInfo_.loadFrom = LOCAL_ then
        [Message.saveProjectLocally s.projectName_ s.projectInfo_.tests]
      else []) := by
  unfold handleReplaceButton_
  rw [processSelections_unchecked sels h]

/-- Witness for the amended C3 at a concrete input: one unchecked selection
in a locally loaded project. -/
theorem handleReplace_zeroChecked_witness :
    Rpf.handleReplaceButton_ [{ checked := false, value := "t1___s1" }]
        Rpf.exCmd Rpf.exStateLocal =
      some (Rpf.handleCancelButton_ Rpf.exStateLocal,
        if Rpf.exStateLocal.projectInfo_.loadFrom = Rpf.LOCAL_ then
          [Rpf.Message.saveProjectLocally Rpf.exStateLocal.projectName_
            Rpf.exStateLocal.projectInfo_.tests]
        else []) :=
  handleReplace_zeroChecked (by decide)

/-- Counterexample for C4: a checked selection whose elemId dangles (step s3
references the missing element id) makes the whole replace handler throw -
the model returns none - instead of skipping the match and processing the
remaining valid selection. -/
theorem handleReplace_unresolved_cex :
    Rpf.handleReplaceButton_
      [{ checked := true, value := "t1___s3" }, { checked := true, value := "t1___s1" }]
      Rpf.exCmd Rpf.exStateWeb = none := by
  decide

/-- C4 as amended: a checked selection whose test name, step id or elemId
does not resolve makes the replace handler throw (none): the operation
aborts, the remaining selections are not applied, and no persistence request
is issued. -/
theorem handleReplace_unresolved_aborts {sels : List SelectedStep}
    {cmdMap : Rpf.CmdMap} {s : ConsoleState} {x : SelectedStep}
    (hmem : x ∈ sels) (hchk : x.checked = true) (hres : selElem s x = none) :
    handleReplaceButton_ sels cmdMap s = none := by
  unfold handleReplaceButton_
  rw [processSelections_none_of_unresolved sels hmem hchk hres]

/-- Witness for the amended C4 at a concrete input: the dangling checked
selection of the counterexample. -/
theorem handleReplace_unresolved_aborts_witness :
    Rpf.handleReplaceButton_
      [{ checked := true, value := "t1___s3" }, { checked := true, value := "t1___s1" }]
      Rpf.exCmd Rpf.exStateWeb = none :=
  handleReplace_unresolved_aborts
    (show ({ checked := true, value := "t1___s3" } : Rpf.SelectedStep) ∈
      [({ checked := true, value := "t1___s3" } : Rpf.SelectedStep),
       { checked := true, value := "t1___s1" }] by decide)
    rfl (by decide)

/-- C7: the replace handler is idempotent on a fixed selection: running it a
second time with the same command map and the same checked selections from
the state it produced succeeds, changes nothing (every ElementRecord, and
indeed the whole console state, is already in its final form) and issues the
same messages. -/
theorem handleReplace_idempotent {sels : List SelectedStep} {cmdMap : Rpf.CmdMap}
    {s s1 : ConsoleState} {msgs : List Message}
    (h : handleReplaceButton_ sels cmdMap s = some (s1, msgs)) :
    handleReplaceButton_ sels cmdMap s1 = some (s1, msgs) := by
  unfold handleReplaceButton_ at h ⊢
  split at h
  · exact absurd h (by simp)
  · rename_i s2 hps
    have hpair := Option.some.inj h
    injection hpair with hs1 hmsgs
    subst hs1
    subst hmsgs
    have htargets := processSelections_sets_targets sels hps
    have hfix : processSelections sels cmdMap (handleCancelButton_ s2) =
        some (handleCancelButton_ s2) :=
      processSelections_fixpoint sels (fun x hx hchk => htargets x hx hchk)
    rw [hfix]
    rfl

/-- Witness for C7 at a concrete input: the second run from the state the
first run produced returns the same state and the same message. -/
theorem handleReplace_idempotent_witness :
    Rpf.handleReplaceButton_ [{ checked := true, value := "t1___s1" }]
        Rpf.exCmd Rpf.exStateLocalDone =
      some (Rpf.exStateLocalDone,
        [Rpf.Message.saveProjectLocally "proj"
          [{ name := "t1", infoMap := Rpf.exMap1New }]]) :=
  handleReplace_idempotent
    (show Rpf.handleReplaceButton_ [{ checked := true, value := "t1___s1" }]
        Rpf.exCmd Rpf.exStateLocal =
      some (Rpf.exStateLocalDone,
        [Rpf.Message.saveProjectLocally "proj"
          [{ name := "t1", infoMap := Rpf.exMap1New }]]) by decide)

/-- C8: the cancel handler mutates no InfoMap: for every console state it
leaves the open InfoMap, the project info, the project name and the test name
identical, only discards the pending match surface and removes the registered
listeners, and it is an idempotent no-op that is safe to call even when no
search or confirmation cycle is in progress. -/
theorem handleCancelButton_no_mutation (s : ConsoleState) :
    (handleCancelButton_ s).infoMap_ = s.infoMap_ ∧
    (handleCancelButton_ s).projectInfo_ = s.projectInfo_ ∧
    (handleCancelButton_ s).projectName_ = s.projectName_ ∧
    (handleCancelButton_ s).testName_ = s.testName_ ∧
    (handleCancelButton_ s).updateAllHandler_ = [] ∧
    (handleCancelButton_ s).pendingDialog = none ∧
    handleCancelButton_ (handleCancelButton_ s) = handleCancelButton_ s :=
  ⟨rfl, rfl, rfl, rfl, rfl, rfl, rfl⟩

end Rpf
